import Mathlib

/-!
Verification development for the talberos icon-generation scripts.

The repository holds two variants of one Python script:
* `src/public/ico4x4.py` (the conservative variant, namespace `Conservative`
  below): flattens every image onto a white background, and skips outputs
  that already exist.
* `src/public/images/preview/ico4x4.py` (the preview variant, namespace
  `Preview` below): keeps transparency via RGBA conversion, always
  overwrites, and additionally produces three full-size previews.

The embedding models the decoded Pillow image values, the Pillow calls the
scripts make (`convert`, `paste` with an alpha mask, `resize`, `save` for
the ICO container), the directory as an association list from file name to
file content, and each per-asset generation step (with its try/except
boundary and the existence checks) as an explicit step function.  Write
failures are modelled by a set of failing destination paths.
-/

/-- One pixel.  Channel meaning depends on the image mode: for `RGB`/`RGBA`
the four fields are red, green, blue, alpha; for `L`/`LA` the gray value is
stored in `r`; for `P` the palette index is stored in `r`.  Channels of a
mode that does not use them are kept at 255 by every conversion below. -/
structure Px where
  r : Nat
  g : Nat
  b : Nat
  a : Nat
deriving DecidableEq, Repr

/-- Pillow color modes that the scripts can encounter: true color without and
with alpha, grayscale without and with alpha, and paletted. -/
inductive PilMode
  | RGB
  | RGBA
  | L
  | LA
  | P
deriving DecidableEq, Repr

/-- A decoded Pillow image: mode, pixel dimensions, row-major pixel list,
and for paletted images the palette plus the optional transparency index
from the image info dictionary. -/
structure PImage where
  mode : PilMode
  width : Nat
  height : Nat
  px : List Px
  palette : List Px
  transp : Option Nat
deriving DecidableEq, Repr

/-- Whether the decoded source carries transparency information: an alpha
channel (`RGBA`, `LA`) or a paletted image with a transparency index. -/
def hasAlpha (img : PImage) : Bool :=
  match img.mode with
  | .RGBA => true
  | .LA => true
  | .P => img.transp.isSome
  | _ => false

/-- Palette lookup for mode `P` pixels (out-of-range indices give black, as
junk data never produced by Pillow). -/
def paletteColor (pal : List Px) (idx : Nat) : Px :=
  pal.getD idx ⟨0, 0, 0, 255⟩

/-- Pillow `img.convert("RGB")`: drop alpha for `RGBA`/`LA`, replicate the
gray value for `L`/`LA`, look the palette up for `P` (any transparency index
is ignored — Pillow does not composite when converting to RGB). -/
def pilConvertRGB (img : PImage) : PImage :=
  let f : Px → Px :=
    match img.mode with
    | .RGB => fun p => ⟨p.r, p.g, p.b, 255⟩
    | .RGBA => fun p => ⟨p.r, p.g, p.b, 255⟩
    | .L => fun p => ⟨p.r, p.r, p.r, 255⟩
    | .LA => fun p => ⟨p.r, p.r, p.r, 255⟩
    | .P => fun p =>
        let c := paletteColor img.palette p.r
        ⟨c.r, c.g, c.b, 255⟩
  { mode := .RGB, width := img.width, height := img.height,
    px := img.px.map f, palette := [], transp := none }

/-- Pillow `img.convert("RGBA")`: add an opaque alpha channel to `RGB`/`L`,
keep the alpha of `LA`, and for `P` use the transparency index from the info
dictionary (matching index becomes fully transparent, the rest opaque). -/
def pilConvertRGBA (img : PImage) : PImage :=
  let f : Px → Px :=
    match img.mode with
    | .RGB => fun p => ⟨p.r, p.g, p.b, 255⟩
    | .RGBA => fun p => p
    | .L => fun p => ⟨p.r, p.r, p.r, 255⟩
    | .LA => fun p => ⟨p.r, p.r, p.r, p.a⟩
    | .P => fun p =>
        let c := paletteColor img.palette p.r
        ⟨c.r, c.g, c.b, if img.transp = some p.r then 0 else 255⟩
  { mode := .RGBA, width := img.width, height := img.height,
    px := img.px.map f, palette := [], transp := none }

/-- Pillow's fixed-point approximation of `x * y / 255` (the `MULDIV255`
macro used by `Image.paste` when blending through a mask). -/
def muldiv255 (x y : Nat) : Nat :=
  let t := x * y + 128
  (t / 256 + t) / 256

/-- Blend one background pixel with one source pixel through mask value `m`,
channel by channel, exactly as Pillow's masked `paste` does. -/
def blendPx (bg src : Px) (m : Nat) : Px :=
  ⟨muldiv255 bg.r (255 - m) + muldiv255 src.r m,
   muldiv255 bg.g (255 - m) + muldiv255 src.g m,
   muldiv255 bg.b (255 - m) + muldiv255 src.b m,
   muldiv255 bg.a (255 - m) + muldiv255 src.a m⟩

/-- Pillow `background.paste(img, (0, 0), img)` where `background` is an
RGBA image of the same size: the source is first converted to the
background's mode, and the mask's alpha band drives a per-pixel blend. -/
def pasteMask (bg src : PImage) : PImage :=
  { bg with px := List.zipWith (fun b s => blendPx b s s.a) bg.px src.px }

/-- Pillow `Image.new("RGBA", (w, h), (255, 255, 255, 255))`. -/
def newWhiteRGBA (w h : Nat) : PImage :=
  { mode := .RGBA, width := w, height := h,
    px := List.replicate (w * h) ⟨255, 255, 255, 255⟩,
    palette := [], transp := none }

/-- `flatten_image_to_white` from `src/public/ico4x4.py`: images whose mode
is `RGBA` or `LA` are pasted onto an opaque white RGBA background using
their own alpha as the mask and then converted to RGB; every other mode is
converted to RGB directly (so paletted transparency is NOT composited). -/
def flatten_image_to_white (img : PImage) : PImage :=
  if img.mode = .RGBA ∨ img.mode = .LA then
    pilConvertRGB (pasteMask (newWhiteRGBA img.width img.height) (pilConvertRGBA img))
  else
    pilConvertRGB img

/-- `ImageModeConverter.ensure_rgba` from the preview variant: convert to
RGBA unless the image already is RGBA. -/
def ensure_rgba (img : PImage) : PImage :=
  if img.mode ≠ .RGBA then pilConvertRGBA img else img

/-- `ImageModeConverter.ensure_rgb` from the preview variant: convert to RGB
unless the image already is RGB.  Note that Pillow's RGBA-to-RGB conversion
simply drops the alpha channel; nothing is composited onto a background. -/
def ensure_rgb (img : PImage) : PImage :=
  if img.mode ≠ .RGB then pilConvertRGB img else img

/-- Modelled from the spec: section 4.1 describes normalization for an
alpha-incapable target as "composite the image onto an opaque background
(white) and drop the alpha channel".  This definition follows those words
(interpret the source's pixels with their alpha, blend each onto opaque
white, then drop alpha) and is used only to compare the spec's description
against what the code actually computes. -/
def specFlattenWhite (img : PImage) : PImage :=
  let rgba := pilConvertRGBA img
  { mode := .RGB, width := img.width, height := img.height,
    px := rgba.px.map (fun p =>
      let q := blendPx ⟨255, 255, 255, 255⟩ p p.a
      ⟨q.r, q.g, q.b, 255⟩),
    palette := [], transp := none }

/-- Deterministic stand-in for the resampling kernel: pixel `(i, j)` of the
target is sampled from the source grid.  The scripts always request
`Image.LANCZOS`; no verified claim depends on the filter's weights, only on
the fact that resampling is a fixed deterministic function of the source
pixels and the target size, so the kernel itself is abstracted by
point sampling.  Out-of-range access (possible only for malformed pixel
lists, which Pillow never produces) yields opaque black. -/
def resamplePx (img : PImage) (w h : Nat) : List Px :=
  (List.range h).flatMap (fun j =>
    (List.range w).map (fun i =>
      img.px.getD (j * img.height / h * img.width + i * img.width / w)
        ⟨0, 0, 0, 255⟩))

/-- The image produced by a successful `img.resize((w, h), Image.LANCZOS)`:
a new image record with the target dimensions and resampled pixels; mode,
palette and transparency info are carried over unchanged. -/
def resizedTo (img : PImage) (w h : Nat) : PImage :=
  { img with width := w, height := h, px := resamplePx img w h }

/-- Pillow `img.resize((w, h), Image.LANCZOS)`: raises
`ValueError("height and width must be > 0")` when either target dimension
is not positive, and otherwise returns a new image, leaving the input
untouched (images are immutable values in this embedding, as `resize` never
writes through its receiver in Pillow either). -/
def pilResize (img : PImage) (size : Nat × Nat) : Except String PImage :=
  if size.1 = 0 ∨ size.2 = 0 then .error "height and width must be > 0"
  else .ok (resizedTo img size.1 size.2)

/-- `ImageResizer.resize` from the preview variant: delegate to Pillow's
`resize` with the LANCZOS filter. -/
def ImageResizer.resize (img : PImage) (size : Nat × Nat) : Except String PImage :=
  pilResize img size

/-- The frames Pillow's ICO encoder embeds when `im.save(path, format="ICO",
sizes=...)` is called on image `im`: every requested size that exceeds the
image's own dimensions (or 256) is silently dropped, and each surviving
size yields one frame, produced by `thumbnail` — which never upscales, so
for surviving sizes (all at least as large as `im`) the frame is `im`
itself.  Newer Pillow first sorts and deduplicates the requested list; the
scripts only pass sorted duplicate-free lists, for which the two behaviors
coincide, so the list order is kept. -/
def icoSaveFrames (im : PImage) (sizes : List (Nat × Nat)) : List PImage :=
  sizes.filterMap (fun s =>
    if im.width < s.1 ∨ im.height < s.2 ∨ 256 < s.1 ∨ 256 < s.2 then none
    else some im)

/-!
Filesystem and run model.  The directory is an association list from file
name to file content; `os.listdir` order is the list order.  Encoded output
files remember the format and the exact image (or ICO frame list) handed to
`save`, and pre-existing files of unknown content are `raw` blobs.
-/

/-- Content of one file in the script's directory. -/
inductive FileData
  | raw : Nat → FileData
  | png : PImage → FileData
  | jpeg : PImage → FileData
  | webp : PImage → FileData
  | ico : List PImage → FileData
deriving DecidableEq, Repr

/-- The script's directory: file names in listing order with their data. -/
abbrev FS := List (String × FileData)

/-- Look a file up by name (first binding wins; names are unique in a real
directory). -/
def lookup : FS → String → Option FileData
  | [], _ => none
  | (q, d) :: rest, p => if q = p then some d else lookup rest p

/-- Write a file: replace the existing binding in place, or append a new
one at the end of the listing. -/
def setFile : FS → String → FileData → FS
  | [], p, d => [(p, d)]
  | (q, e) :: rest, p, d =>
      if q = p then (p, d) :: rest else (q, e) :: setFile rest p d

/-- Fallback image used by `decode` below for content the model does not
track pixel-exactly. -/
def defaultImage : PImage :=
  ⟨.RGB, 1, 1, [⟨0, 0, 0, 255⟩], [], none⟩

/-- `Image.open` on a file's content: encoded files decode back to the image
that was saved (first frame for ICO), and `raw` blobs decode to a
deterministic placeholder image. -/
def decode : FileData → PImage
  | .png i => i
  | .jpeg i => i
  | .webp i => i
  | .ico l => l.headD defaultImage
  | .raw n => ⟨.RGB, 1, 1, [⟨n % 256, 0, 0, 255⟩], [], none⟩

/-- Content of a file known to exist (placeholder blob otherwise). -/
def getFile (fs : FS) (p : String) : FileData :=
  (lookup fs p).getD (.raw 0)

/-- ASCII lowering of a file name, modelling Python's `str.lower` on the
names that actually occur (file names are ASCII in this repository). -/
def pyLower (s : String) : String :=
  String.mk (s.toList.map Char.toLower)

/-- Python `f.lower().endswith(".webp")`. -/
def endsWithDotWebp (s : String) : Bool :=
  decide ((pyLower s).toList.reverse.take 5 = ['p', 'b', 'e', 'w', '.'])

/-- The `.webp` files of the directory, in listing order — the list both
variants' Mode A iterates over. -/
def webpNames (fs : FS) : List String :=
  (fs.map Prod.fst).filter endsWithDotWebp

/-- `os.path.splitext(n)[0]` for ordinary file names: the characters before
the last dot; a name without a dot, or whose only dot is a leading one, is
returned unchanged (Python treats leading dots as part of the base name; the
deeper all-leading-dots corner of `splitext` never arises here). -/
def splitextBase (n : String) : String :=
  let rest := n.toList.reverse.dropWhile (· ≠ '.')
  match rest with
  | [] => n
  | [_] => n
  | _ :: tl => String.mk tl.reverse

/-- Console messages the scripts print, by kind and subject file. -/
inductive Msg
  | generated (name : String)
  | skipped (name : String)
  | genError (name : String)
  | notFound (name : String)
  | noWebpFound
deriving DecidableEq, Repr

/-- Decidable equality for the error-or-content results below (core derives
no such instance for `Except`). -/
instance : DecidableEq (Except String FileData)
  | .error x, .error y =>
      if h : x = y then isTrue (congrArg Except.error h)
      else isFalse (fun c => h (Except.error.inj c))
  | .error _, .ok _ => isFalse Except.noConfusion
  | .ok _, .error _ => isFalse Except.noConfusion
  | .ok x, .ok y =>
      if h : x = y then isTrue (congrArg Except.ok h)
      else isFalse (fun c => h (Except.ok.inj c))

/-- One asset-generation unit of work: the destination path, whether the
variant checks for an existing destination first (the conservative variant's
skip policy), and the content computation, whose `Except` carries any error
raised while transforming or encoding the image (caught at this asset's
try/except boundary). -/
structure AssetOp where
  path : String
  skipIfExists : Bool
  gen : Except String FileData
deriving DecidableEq, Repr

/-- Run one asset's generation against the current directory.  `fails` is
the set of destination paths whose write raises an `IOFailure` (modelling
permission or disk errors); such an error, like a `gen` error, is caught at
the asset's boundary and reported, leaving the destination untouched. -/
def stepFS (fails : List String) (fs : FS) (op : AssetOp) : FS :=
  if op.skipIfExists ∧ (lookup fs op.path).isSome then fs
  else
    match op.gen with
    | .error _ => fs
    | .ok d => if op.path ∈ fails then fs else setFile fs op.path d

/-- The single console message the asset's run prints. -/
def stepMsg (fails : List String) (fs : FS) (op : AssetOp) : Msg :=
  if op.skipIfExists ∧ (lookup fs op.path).isSome then .skipped op.path
  else
    match op.gen with
    | .error _ => .genError op.path
    | .ok _ => if op.path ∈ fails then .genError op.path else .generated op.path

/-- Run a list of asset operations in order, threading the directory and
collecting one message per asset.  Because every asset's failure is caught
at its own boundary (`stepFS` never aborts), later assets always run. -/
def applyOps (fails : List String) : List AssetOp → FS → FS × List Msg
  | [], fs => (fs, [])
  | op :: rest, fs =>
      let fs' := stepFS fails fs op
      let r := applyOps fails rest fs'
      (r.1, stepMsg fails fs op :: r.2)

/-!
Constants of the preview variant (`src/public/images/preview/ico4x4.py`).
-/

def LOGO_FILENAME : String := "logo.png"
def WEBP_TO_ICO_SIZE : Nat := 64
def FAVICON_16 : String := "favicon-16x16.png"
def FAVICON_16_SIZE : Nat × Nat := (16, 16)
def FAVICON_32 : String := "favicon-32x32.png"
def FAVICON_32_SIZE : Nat × Nat := (32, 32)
def APPLE_TOUCH_ICON : String := "apple-touch-icon.png"
def APPLE_TOUCH_ICON_SIZE : Nat × Nat := (180, 180)
def FAVICON_ICO : String := "favicon.ico"
def FAVICON_ICO_SIZES : List Nat := [16, 32, 48, 64]
def PREVIEW_PNG : String := "preview.png"
def PREVIEW_JPG : String := "preview.jpg"
def PREVIEW_WEBP : String := "preview.webp"

/-- The favicon.ico content computation shared by both variants: resize the
base image to every requested square size (any resize error aborts this one
asset), then save the FIRST resized image — `icon_list[0]` in both scripts —
with the full `sizes` list; the frames actually embedded then follow
Pillow's ICO encoder semantics (`icoSaveFrames`). -/
def faviconIcoData (img : PImage) (sizes : List Nat) : Except String FileData :=
  match (sizes.mapM fun s => pilResize img (s, s)) with
  | .error e => .error e
  | .ok [] => .error "list index out of range"
  | .ok (b :: _) => .ok (.ico (icoSaveFrames b (sizes.map fun s => (s, s))))

namespace Preview

/-- The seven assets `LogoAssetsGenerator` derives from the loaded logo, in
the order the gathered tasks run them (`_generate_png_icons`, then
`_generate_favicon_ico`, then the three previews).  Every task recomputes
`ensure_rgba` on the shared base image (the JPEG preview uses `ensure_rgb`
instead); none checks for an existing destination. -/
def modeBOps (img : PImage) : List AssetOp :=
  [⟨FAVICON_16, false, (pilResize (ensure_rgba img) FAVICON_16_SIZE).map .png⟩,
   ⟨FAVICON_32, false, (pilResize (ensure_rgba img) FAVICON_32_SIZE).map .png⟩,
   ⟨APPLE_TOUCH_ICON, false,
     (pilResize (ensure_rgba img) APPLE_TOUCH_ICON_SIZE).map .png⟩,
   ⟨FAVICON_ICO, false, faviconIcoData (ensure_rgba img) FAVICON_ICO_SIZES⟩,
   ⟨PREVIEW_PNG, false, .ok (.png (ensure_rgba img))⟩,
   ⟨PREVIEW_JPG, false, .ok (.jpeg (ensure_rgb img))⟩,
   ⟨PREVIEW_WEBP, false, .ok (.webp (ensure_rgba img))⟩]

/-- `LogoAssetsGenerator.generate_all_assets`: if the logo file is missing,
report and end the run gracefully with no output; otherwise load it once
and run the seven independent asset tasks (decoding is total in this model,
so the load-error branch of the script is structurally absent). -/
def generate_all_assets (fs : FS) (fails : List String) : FS × List Msg :=
  if (lookup fs LOGO_FILENAME).isSome then
    applyOps fails (modeBOps (decode (getFile fs LOGO_FILENAME))) fs
  else
    (fs, [Msg.notFound LOGO_FILENAME])

/-- The per-file conversion units of `WebpToIcoConverter`: one task per
`.webp` file, converting through `ensure_rgba` and a square resize, always
overwriting the destination `.ico`. -/
def modeAOps (fs : FS) : List AssetOp :=
  (webpNames fs).map fun n =>
    ⟨splitextBase n ++ ".ico", false,
      (pilResize (ensure_rgba (decode (getFile fs n)))
          (WEBP_TO_ICO_SIZE, WEBP_TO_ICO_SIZE)).map
        (fun r => .ico (icoSaveFrames r [(WEBP_TO_ICO_SIZE, WEBP_TO_ICO_SIZE)]))⟩

/-- `WebpToIcoConverter.convert_all_webp_to_ico`: report when the directory
has no `.webp` files, otherwise convert each one (gathered tasks; the list
order is the scheduling the event loop actually uses). -/
def convert_all_webp_to_ico (fs : FS) (fails : List String) : FS × List Msg :=
  if webpNames fs = [] then (fs, [Msg.noWebpFound])
  else applyOps fails (modeAOps fs) fs

end Preview

namespace Conservative

/-- The four assets `generate_icons_from_logo` derives from the flattened
logo, each guarded by an existence check (skip-if-exists). -/
def modeBOps (imgRgb : PImage) : List AssetOp :=
  [⟨"favicon-16x16.png", true, (pilResize imgRgb (16, 16)).map .png⟩,
   ⟨"favicon-32x32.png", true, (pilResize imgRgb (32, 32)).map .png⟩,
   ⟨"apple-touch-icon.png", true, (pilResize imgRgb (180, 180)).map .png⟩,
   ⟨"favicon.ico", true, faviconIcoData imgRgb [16, 32, 48, 64]⟩]

/-- `generate_icons_from_logo` from `src/public/ico4x4.py`: missing logo is
reported and the run ends gracefully; otherwise the logo is loaded once,
flattened onto white, and each of the four outputs is generated unless it
already exists. -/
def generate_icons_from_logo (fs : FS) (fails : List String) : FS × List Msg :=
  if (lookup fs "logo.png").isSome then
    applyOps fails
      (modeBOps (flatten_image_to_white (decode (getFile fs "logo.png")))) fs
  else
    (fs, [Msg.notFound "logo.png"])

/-- The per-file conversion units of the conservative bulk mode: flatten
onto white, resize to 64, save a single-size ICO — skipping any `.webp`
whose `.ico` already exists. -/
def modeAOps (fs : FS) : List AssetOp :=
  (webpNames fs).map fun n =>
    ⟨splitextBase n ++ ".ico", true,
      (pilResize (flatten_image_to_white (decode (getFile fs n))) (64, 64)).map
        (fun r => .ico (icoSaveFrames r [(64, 64)]))⟩

/-- `convert_all_webp_to_ico` from `src/public/ico4x4.py`: sequential loop
over the `.webp` files with the skip-if-exists policy. -/
def convert_all_webp_to_ico (fs : FS) (fails : List String) : FS × List Msg :=
  if webpNames fs = [] then (fs, [Msg.noWebpFound])
  else applyOps fails (modeAOps fs) fs

end Conservative

/-- The value an asset's run leaves at its own destination, as a function of
the value previously there: untouched when skipped, when generation errors,
or when the write fails; the fresh content otherwise. -/
def stepVal (fails : List String) (op : AssetOp) (cur : Option FileData) :
    Option FileData :=
  if op.skipIfExists ∧ cur.isSome then cur
  else
    match op.gen with
    | .error _ => cur
    | .ok d => if op.path ∈ fails then cur else some d

/-- The console message printed by an asset whose variant never skips:
a generation or write error is reported, otherwise success. -/
def msgOf (fails : List String) (op : AssetOp) : Msg :=
  match op.gen with
  | .error _ => Msg.genError op.path
  | .ok _ =>
      if op.path ∈ fails then Msg.genError op.path else Msg.generated op.path

/-- Two directory states that agree on every lookup (they may list entries
in different orders after out-of-order writes). -/
def FSEquiv (fsA fsB : FS) : Prop :=
  ∀ q, lookup fsA q = lookup fsB q

/-- A 1-by-1 RGBA image whose only pixel is fully transparent red. -/
def imgRGBATransparent : PImage :=
  ⟨.RGBA, 1, 1, [⟨100, 0, 0, 0⟩], [], none⟩

/-- A 1-by-1 paletted image whose only pixel uses the transparent palette
index (palette color 10/20/30). -/
def imgPTransparent : PImage :=
  ⟨.P, 1, 1, [⟨0, 0, 0, 255⟩], [⟨10, 20, 30, 255⟩], some 0⟩

/-- The images stored inside one encoded output file. -/
def dataImages : FileData → List PImage
  | .png i => [i]
  | .jpeg i => [i]
  | .webp i => [i]
  | .ico l => l
  | .raw _ => []

/-- A 1-by-1 opaque RGB logo used by concrete witnesses. -/
def opaqueLogo : PImage := ⟨.RGB, 1, 1, [⟨5, 6, 7, 9⟩], [], none⟩

/-- Directory fixture: conservative Mode B with an already existing
favicon-16x16.png. -/
def fsConservativeExisting : FS :=
  [("logo.png", FileData.png imgRGBATransparent),
   ("favicon-16x16.png", FileData.raw 7)]

/-- Directory fixture: preview Mode B with an already existing
preview.jpg destined to be overwritten. -/
def fsPreviewExisting : FS :=
  [("logo.png", FileData.png opaqueLogo), ("preview.jpg", FileData.raw 3)]

/-- Directory fixture: just the logo. -/
def fsLogoOnly : FS := [("logo.png", FileData.png opaqueLogo)]

/-- Directory fixture for C7: two `.webp` sources and one pre-existing
destination. -/
def fsBulk : FS :=
  [("a.webp", FileData.webp opaqueLogo),
   ("a.ico", FileData.raw 1),
   ("b.webp", FileData.webp imgRGBATransparent)]

/-- A 512-by-512 RGBA logo; its pixel payload is irrelevant to the ICO
frame structure, which depends only on the dimensions. -/
def bigLogo : PImage := ⟨.RGBA, 512, 512, [], [], none⟩

/-- Directory fixture: a large logo, so every requested favicon size fits
the source. -/
def fsBigLogo : FS := [("logo.png", FileData.png bigLogo)]

/-- Directory fixture: two `.webp` sources whose names differ only in case,
so both conversion tasks target the same `a.ico`. -/
def fsCaseCollision : FS :=
  [("a.webp", FileData.webp opaqueLogo),
   ("a.WEBP", FileData.webp imgRGBATransparent)]

/-!
General lemmas about the filesystem and the per-asset step semantics.
-/

theorem lookup_setFile_self (fs : FS) (p : String) (d : FileData) :
    lookup (setFile fs p d) p = some d := by
  induction fs with
  | nil => simp [setFile, lookup]
  | cons x rest ih =>
      obtain ⟨a, e⟩ := x
      by_cases h : a = p
      · simp [setFile, lookup, h]
      · simp [setFile, lookup, h, ih]

theorem lookup_setFile_ne (fs : FS) (p q : String) (d : FileData)
    (h : q ≠ p) : lookup (setFile fs p d) q = lookup fs q := by
  have hpq : p ≠ q := Ne.symm h
  induction fs with
  | nil => simp [setFile, lookup, hpq]
  | cons x rest ih =>
      obtain ⟨a, e⟩ := x
      by_cases ha : a = p
      · subst ha
        simp [setFile, lookup, hpq]
      · simp [setFile, lookup, ha, ih]

theorem lookup_stepFS_self (fails : List String) (fs : FS) (op : AssetOp) :
    lookup (stepFS fails fs op) op.path = stepVal fails op (lookup fs op.path) := by
  unfold stepFS stepVal
  by_cases hs : op.skipIfExists ∧ (lookup fs op.path).isSome
  · simp [hs]
  · simp only [hs, if_neg hs, if_false]
    cases op.gen with
    | error e => rfl
    | ok d =>
        by_cases hf : op.path ∈ fails
        · simp [hf]
        · simp [hf, lookup_setFile_self]

theorem lookup_stepFS_ne (fails : List String) (fs : FS) (op : AssetOp)
    (q : String) (h : q ≠ op.path) :
    lookup (stepFS fails fs op) q = lookup fs q := by
  unfold stepFS
  by_cases hs : op.skipIfExists ∧ (lookup fs op.path).isSome
  · simp [hs]
  · simp only [hs, if_neg hs, if_false]
    cases op.gen with
    | error e => rfl
    | ok d =>
        by_cases hf : op.path ∈ fails
        · simp [hf]
        · simp [hf, lookup_setFile_ne _ _ _ _ h]

theorem applyOps_lookup_notmem (fails : List String) (ops : List AssetOp)
    (fs : FS) (p : String) (h : p ∉ ops.map AssetOp.path) :
    lookup (applyOps fails ops fs).1 p = lookup fs p := by
  induction ops generalizing fs with
  | nil => rfl
  | cons x rest ih =>
      simp only [List.map_cons, List.mem_cons] at h
      push_neg at h
      simp only [applyOps]
      rw [ih _ h.2, lookup_stepFS_ne _ _ _ _ h.1]

theorem applyOps_lookup_mem (fails : List String) (ops : List AssetOp)
    (fs : FS) (op : AssetOp)
    (hn : (ops.map AssetOp.path).Nodup) (hop : op ∈ ops) :
    lookup (applyOps fails ops fs).1 op.path
      = stepVal fails op (lookup fs op.path) := by
  induction ops generalizing fs with
  | nil => cases hop
  | cons x rest ih =>
      simp only [List.map_cons, List.nodup_cons] at hn
      rcases List.mem_cons.1 hop with rfl | hmem
      · simp only [applyOps]
        rw [applyOps_lookup_notmem _ _ _ _ hn.1, lookup_stepFS_self]
      · have hne : x.path ≠ op.path := by
          intro c
          exact hn.1 (c ▸ List.mem_map_of_mem AssetOp.path hmem)
        simp only [applyOps]
        rw [ih _ hn.2 hmem, lookup_stepFS_ne _ _ _ _ (Ne.symm hne)]

theorem stepMsg_noskip (fails : List String) (fs : FS) (op : AssetOp)
    (h : op.skipIfExists = false) : stepMsg fails fs op = msgOf fails op := by
  unfold stepMsg msgOf
  simp [h]

theorem applyOps_msg_mem (fails : List String) (ops : List AssetOp) (fs : FS)
    (op : AssetOp) (hop : op ∈ ops) (hsk : op.skipIfExists = false) :
    msgOf fails op ∈ (applyOps fails ops fs).2 := by
  induction ops generalizing fs with
  | nil => cases hop
  | cons x rest ih =>
      rcases List.mem_cons.1 hop with rfl | hmem
      · simp only [applyOps]
        rw [stepMsg_noskip _ _ _ hsk]
        exact List.mem_cons_self _ _
      · simp only [applyOps]
        exact List.mem_cons_of_mem _ (ih _ hmem)

theorem applyOps_skip_msg_mem (fails : List String) (ops : List AssetOp)
    (fs : FS) (op : AssetOp)
    (hn : (ops.map AssetOp.path).Nodup) (hop : op ∈ ops)
    (hsk : op.skipIfExists = true)
    (hex : (lookup fs op.path).isSome) :
    Msg.skipped op.path ∈ (applyOps fails ops fs).2 := by
  induction ops generalizing fs with
  | nil => cases hop
  | cons x rest ih =>
      simp only [List.map_cons, List.nodup_cons] at hn
      rcases List.mem_cons.1 hop with rfl | hmem
      · simp only [applyOps]
        have : stepMsg fails fs op = Msg.skipped op.path := by
          unfold stepMsg
          simp [hsk, hex]
        rw [this]
        exact List.mem_cons_self _ _
      · have hne : x.path ≠ op.path := by
          intro c
          exact hn.1 (c ▸ List.mem_map_of_mem AssetOp.path hmem)
        have hex' : (lookup (stepFS fails fs x) op.path).isSome := by
          rw [lookup_stepFS_ne _ _ _ _ (Ne.symm hne)]
          exact hex
        simp only [applyOps]
        exact List.mem_cons_of_mem _ (ih _ hn.2 hmem hex')

theorem applyOps_snd_noskip (fails : List String) (ops : List AssetOp)
    (fs : FS) (h : ∀ op ∈ ops, op.skipIfExists = false) :
    (applyOps fails ops fs).2 = ops.map (msgOf fails) := by
  induction ops generalizing fs with
  | nil => rfl
  | cons x rest ih =>
      simp only [applyOps, List.map_cons]
      rw [stepMsg_noskip _ _ _ (h x (List.mem_cons_self _ _)),
        ih _ (fun op hop => h op (List.mem_cons_of_mem _ hop))]


theorem fsEquiv_setFile {fsA fsB : FS} (h : FSEquiv fsA fsB)
    (p : String) (d : FileData) :
    FSEquiv (setFile fsA p d) (setFile fsB p d) := by
  intro q
  by_cases hq : q = p
  · subst hq
    rw [lookup_setFile_self, lookup_setFile_self]
  · rw [lookup_setFile_ne _ _ _ _ hq, lookup_setFile_ne _ _ _ _ hq]
    exact h q

theorem fsEquiv_stepFS {fsA fsB : FS} (h : FSEquiv fsA fsB)
    (fails : List String) (op : AssetOp) :
    FSEquiv (stepFS fails fsA op) (stepFS fails fsB op) := by
  unfold stepFS
  rw [h op.path]
  by_cases hs : op.skipIfExists ∧ (lookup fsB op.path).isSome
  · simpa [hs] using h
  · simp only [if_neg hs]
    cases op.gen with
    | error e => exact h
    | ok d =>
        by_cases hf : op.path ∈ fails
        · simpa [hf] using h
        · simpa [hf] using fsEquiv_setFile h op.path d

theorem fsEquiv_applyOps {fsA fsB : FS} (h : FSEquiv fsA fsB)
    (fails : List String) (ops : List AssetOp) :
    FSEquiv (applyOps fails ops fsA).1 (applyOps fails ops fsB).1 := by
  induction ops generalizing fsA fsB with
  | nil => exact h
  | cons x rest ih => exact ih (fsEquiv_stepFS h fails x)

/-- Two asset runs targeting distinct destinations commute up to lookup
equivalence: each writes only its own destination and reads only its own
destination's presence. -/
theorem stepFS_comm (fails : List String) (fs : FS) (x y : AssetOp)
    (hne : x.path ≠ y.path) :
    FSEquiv (stepFS fails (stepFS fails fs x) y)
      (stepFS fails (stepFS fails fs y) x) := by
  intro q
  by_cases hqx : q = x.path
  · subst hqx
    have l1 : lookup (stepFS fails (stepFS fails fs x) y) x.path
        = stepVal fails x (lookup fs x.path) := by
      rw [lookup_stepFS_ne _ _ _ _ hne, lookup_stepFS_self]
    have l2 : lookup (stepFS fails (stepFS fails fs y) x) x.path
        = stepVal fails x (lookup fs x.path) := by
      rw [lookup_stepFS_self, lookup_stepFS_ne _ _ _ _ hne]
    rw [l1, l2]
  · by_cases hqy : q = y.path
    · subst hqy
      have l1 : lookup (stepFS fails (stepFS fails fs x) y) y.path
          = stepVal fails y (lookup fs y.path) := by
        rw [lookup_stepFS_self, lookup_stepFS_ne _ _ _ _ (Ne.symm hne)]
      have l2 : lookup (stepFS fails (stepFS fails fs y) x) y.path
          = stepVal fails y (lookup fs y.path) := by
        rw [lookup_stepFS_ne _ _ _ _ (Ne.symm hne), lookup_stepFS_self]
      rw [l1, l2]
    · rw [lookup_stepFS_ne _ _ _ _ hqy, lookup_stepFS_ne _ _ _ _ hqx,
        lookup_stepFS_ne _ _ _ _ hqx, lookup_stepFS_ne _ _ _ _ hqy]

/-- Scheduling invariance: running a list of asset operations with pairwise
distinct destination paths in any order leaves every file at the same final
content. -/
theorem applyOps_perm_lookup (fails : List String) {l₁ l₂ : List AssetOp}
    (h : l₁.Perm l₂) :
    (l₂.map AssetOp.path).Nodup →
    ∀ fs p,
      lookup (applyOps fails l₁ fs).1 p = lookup (applyOps fails l₂ fs).1 p := by
  induction h with
  | nil =>
      intro _ fs p
      rfl
  | cons x h ih =>
      intro hn fs p
      simp only [List.map_cons, List.nodup_cons] at hn
      simpa only [applyOps] using ih hn.2 (stepFS fails fs x) p
  | swap x y l =>
      intro hn fs p
      simp only [List.map_cons, List.nodup_cons, List.mem_cons] at hn
      have hxy : y.path ≠ x.path := by
        intro c
        exact hn.1 (Or.inl c.symm)
      simp only [applyOps]
      exact fsEquiv_applyOps (stepFS_comm fails fs y x hxy) fails l p
  | trans h₁ h₂ ih₁ ih₂ =>
      intro hn fs p
      have hn₂ := (List.Perm.nodup_iff (h₂.map AssetOp.path)).mpr hn
      rw [ih₁ hn₂ fs p, ih₂ hn fs p]

/-!
Lemmas about the image operations.
-/

theorem pilConvertRGB_mode (img : PImage) : (pilConvertRGB img).mode = .RGB := rfl

theorem pilConvertRGBA_mode (img : PImage) : (pilConvertRGBA img).mode = .RGBA := rfl

theorem ensure_rgba_mode (img : PImage) : (ensure_rgba img).mode = .RGBA := by
  unfold ensure_rgba
  by_cases h : img.mode = .RGBA
  · simp [h]
  · simp [h, pilConvertRGBA_mode]

theorem ensure_rgb_mode (img : PImage) : (ensure_rgb img).mode = .RGB := by
  unfold ensure_rgb
  by_cases h : img.mode = .RGB
  · simp [h]
  · simp [h, pilConvertRGB_mode]

theorem flatten_image_to_white_mode (img : PImage) :
    (flatten_image_to_white img).mode = .RGB := by
  unfold flatten_image_to_white
  by_cases h : img.mode = .RGBA ∨ img.mode = .LA
  · simp [h, pilConvertRGB_mode]
  · simp [h, pilConvertRGB_mode]

/-- Converting to RGB twice is converting once: the second conversion sees
an RGB image whose pixels already have the canonical opaque alpha byte. -/
theorem pilConvertRGB_idem (x : PImage) :
    pilConvertRGB (pilConvertRGB x) = pilConvertRGB x := by
  unfold pilConvertRGB
  cases hm : x.mode <;>
    simp [List.map_map, Function.comp]

theorem resamplePx_mem (img : PImage) (w h : Nat) :
    ∀ p ∈ resamplePx img w h, p ∈ img.px ∨ p = ⟨0, 0, 0, 255⟩ := by
  intro p hp
  unfold resamplePx at hp
  simp only [List.mem_flatMap, List.mem_map] at hp
  obtain ⟨j, _, i, _, rfl⟩ := hp
  generalize j * img.height / h * img.width + i * img.width / w = idx
  cases hg : img.px[idx]? with
  | none =>
      right
      simp [List.getD, hg]
  | some q =>
      left
      have he : img.px.getD idx ⟨0, 0, 0, 255⟩ = q := by
        simp [List.getD, hg]
      rw [he]
      exact List.getElem?_mem hg

theorem zipWith_replicate_of_le {α : Type} (f : α → α → α) (c : α) :
    ∀ (l : List α) (n : Nat), l.length ≤ n →
      List.zipWith f (List.replicate n c) l = l.map (f c) := by
  intro l
  induction l with
  | nil =>
      intro n _
      simp
  | cons x xs ih =>
      intro n hn
      cases n with
      | zero => simp at hn
      | succ m =>
          simp only [List.replicate_succ, List.zipWith, List.map_cons]
          rw [ih m (Nat.le_of_succ_le_succ (by simpa using hn))]

theorem pilConvertRGBA_px_alpha255 (img : PImage) (h : hasAlpha img = false) :
    ∀ p ∈ (pilConvertRGBA img).px, p.a = 255 := by
  intro p hp
  unfold pilConvertRGBA at hp
  unfold hasAlpha at h
  cases hm : img.mode with
  | RGBA => rw [hm] at h; simp at h
  | LA => rw [hm] at h; simp at h
  | RGB =>
      rw [hm] at hp
      rcases List.mem_map.1 hp with ⟨q, _, rfl⟩
      rfl
  | L =>
      rw [hm] at hp
      rcases List.mem_map.1 hp with ⟨q, _, rfl⟩
      rfl
  | P =>
      rw [hm] at h hp
      have ht : img.transp = none := by
        cases hv : img.transp with
        | none => rfl
        | some v => rw [hv] at h; simp at h
      rw [ht] at hp
      rcases List.mem_map.1 hp with ⟨q, _, rfl⟩
      simp

theorem ensure_rgba_alpha255 (img : PImage) (h : hasAlpha img = false) :
    ∀ p ∈ (ensure_rgba img).px, p.a = 255 := by
  unfold ensure_rgba
  by_cases hm : img.mode = .RGBA
  · exact absurd h (by unfold hasAlpha; rw [hm]; simp)
  · rw [if_pos hm]
    exact pilConvertRGBA_px_alpha255 img h

theorem icoSaveFrames_mem (im : PImage) (sizes : List (Nat × Nat)) :
    ∀ f ∈ icoSaveFrames im sizes, f = im := by
  intro f hf
  unfold icoSaveFrames at hf
  simp only [List.mem_filterMap] at hf
  obtain ⟨s, _, hs⟩ := hf
  by_cases hc : im.width < s.1 ∨ im.height < s.2 ∨ 256 < s.1 ∨ 256 < s.2
  · simp [hc] at hs
  · simp [hc] at hs
    exact hs.symm

theorem ensure_rgba_of_rgba (x : PImage) (h : x.mode = .RGBA) :
    ensure_rgba x = x := by
  unfold ensure_rgba
  rw [h]
  simp

theorem ensure_rgb_of_rgb (x : PImage) (h : x.mode = .RGB) :
    ensure_rgb x = x := by
  unfold ensure_rgb
  rw [h]
  simp

theorem flatten_of_rgb (x : PImage) (h : x.mode = .RGB) :
    flatten_image_to_white x = pilConvertRGB x := by
  unfold flatten_image_to_white
  rw [h]
  simp

theorem flatten_eq_convert (img : PImage) :
    ∃ z, flatten_image_to_white img = pilConvertRGB z := by
  unfold flatten_image_to_white
  by_cases h : img.mode = .RGBA ∨ img.mode = .LA
  · exact ⟨_, by rw [if_pos h]⟩
  · exact ⟨_, by rw [if_neg h]⟩

theorem flatten_image_to_white_idem (img : PImage) :
    flatten_image_to_white (flatten_image_to_white img)
      = flatten_image_to_white img := by
  obtain ⟨z, hz⟩ := flatten_eq_convert img
  rw [flatten_of_rgb _ (flatten_image_to_white_mode img), hz,
    pilConvertRGB_idem, ← hz]

/-!
The claims.
-/

/-- C10: each mode-normalization operation is idempotent — for every image,
applying `ensure_rgba`, `ensure_rgb`, or `flatten_image_to_white` twice
yields exactly the image (same mode and pixel content, in fact the same
record) that one application yields. -/
theorem c10_normalizers_idempotent (img : PImage) :
    ensure_rgba (ensure_rgba img) = ensure_rgba img
    ∧ ensure_rgb (ensure_rgb img) = ensure_rgb img
    ∧ flatten_image_to_white (flatten_image_to_white img)
        = flatten_image_to_white img :=
  ⟨ensure_rgba_of_rgba _ (ensure_rgba_mode img),
   ensure_rgb_of_rgb _ (ensure_rgb_mode img),
   flatten_image_to_white_idem img⟩

/-- C8: a resize request with a target of 0 in either dimension fails fast
with Pillow's `ValueError`, and for positive targets `resize` returns a new
image record with the requested dimensions built functionally from the
input (which, being a value, is not mutated). -/
theorem c8_resize_contract (img : PImage) (w h : Nat) :
    ((w = 0 ∨ h = 0) →
      ImageResizer.resize img (w, h) = .error "height and width must be > 0")
    ∧ (0 < w → 0 < h →
        ImageResizer.resize img (w, h) = .ok (resizedTo img w h)
          ∧ (resizedTo img w h).width = w ∧ (resizedTo img w h).height = h
          ∧ (resizedTo img w h).mode = img.mode) := by
  constructor
  · intro hz
    unfold ImageResizer.resize pilResize
    rw [if_pos hz]
  · intro hw hh
    refine ⟨?_, rfl, rfl, rfl⟩
    unfold ImageResizer.resize pilResize
    have hc : ¬((w, h).1 = 0 ∨ (w, h).2 = 0) := by
      show ¬(w = 0 ∨ h = 0)
      omega
    rw [if_neg hc]

/-- Witness for C8 at concrete inputs: a 0-width request errors and a
positive request succeeds. -/
theorem c8_resize_contract_witness :
    ImageResizer.resize defaultImage (0, 2)
        = .error "height and width must be > 0"
    ∧ ImageResizer.resize defaultImage (2, 3)
        = .ok (resizedTo defaultImage 2 3) :=
  ⟨(c8_resize_contract defaultImage 0 2).1 (Or.inl rfl),
   ((c8_resize_contract defaultImage 2 3).2 (by decide) (by decide)).1⟩

/-- C6: in Mode B of either variant, when the source logo is absent the run
reports the not-found message, writes nothing (the directory is returned
unchanged), and terminates normally (the run is a total function; no
exception escapes). -/
theorem c6_missing_logo_graceful (fs : FS) (fails fails2 : List String)
    (h : lookup fs "logo.png" = none) :
    Preview.generate_all_assets fs fails = (fs, [Msg.notFound "logo.png"])
    ∧ Conservative.generate_icons_from_logo fs fails2
        = (fs, [Msg.notFound "logo.png"]) := by
  constructor
  · simp [Preview.generate_all_assets, LOGO_FILENAME, h]
  · simp [Conservative.generate_icons_from_logo, h]

/-- Witness for C6: the empty directory has no `logo.png`. -/
theorem c6_missing_logo_graceful_witness :
    Preview.generate_all_assets [] [] = ([], [Msg.notFound "logo.png"])
    ∧ Conservative.generate_icons_from_logo [] []
        = ([], [Msg.notFound "logo.png"]) :=
  c6_missing_logo_graceful [] [] [] rfl

/-- C3 (counterexample): normalizing an alpha-carrying source for JPEG does
NOT composite onto white in the code.  The preview variant's `ensure_rgb`
drops the alpha of a fully transparent red pixel and keeps the red bytes
(white compositing, per `specFlattenWhite`, would give a white pixel), and
the conservative variant's `flatten_image_to_white` converts a paletted
transparent source straight through its palette without compositing. -/
theorem c3_not_white_composited :
    hasAlpha imgRGBATransparent = true
    ∧ hasAlpha imgPTransparent = true
    ∧ ensure_rgb imgRGBATransparent ≠ specFlattenWhite imgRGBATransparent
    ∧ (ensure_rgb imgRGBATransparent).px = [⟨100, 0, 0, 255⟩]
    ∧ (specFlattenWhite imgRGBATransparent).px = [⟨255, 255, 255, 255⟩]
    ∧ flatten_image_to_white imgPTransparent ≠ specFlattenWhite imgPTransparent
    ∧ (flatten_image_to_white imgPTransparent).px = [⟨10, 20, 30, 255⟩] := by
  decide

/-- C3 (amended): for every well-formed source, normalizing for the
alpha-incapable JPEG target yields a 3-channel RGB image with no alpha
byte; the white compositing described by the spec is performed only by
`flatten_image_to_white` and only for `RGBA` and `LA` sources (for which it
agrees exactly with the spec's description `specFlattenWhite`), while
paletted sources and the preview variant's `ensure_rgb` drop transparency
without compositing. -/
theorem c3_normalize_for_jpeg_amended (img : PImage)
    (hwf : img.px.length = img.width * img.height) :
    (flatten_image_to_white img).mode = .RGB
    ∧ (ensure_rgb img).mode = .RGB
    ∧ ((img.mode = .RGBA ∨ img.mode = .LA) →
        flatten_image_to_white img = specFlattenWhite img) := by
  refine ⟨flatten_image_to_white_mode img, ensure_rgb_mode img, ?_⟩
  intro hm
  unfold flatten_image_to_white
  rw [if_pos hm]
  have hlen : (pilConvertRGBA img).px.length ≤ img.width * img.height := by
    simp [pilConvertRGBA, hwf]
  unfold specFlattenWhite pasteMask newWhiteRGBA
  rw [zipWith_replicate_of_le _ _ _ _ hlen]
  rcases hm with hmode | hmode
  · unfold pilConvertRGB pilConvertRGBA
    rw [hmode]
    simp [List.map_map]
  · unfold pilConvertRGB pilConvertRGBA
    rw [hmode]
    simp [List.map_map]

/-- Witness for C3 (amended) at a concrete well-formed transparent RGBA
image. -/
theorem c3_normalize_for_jpeg_amended_witness :
    (flatten_image_to_white imgRGBATransparent).mode = .RGB
    ∧ (ensure_rgb imgRGBATransparent).mode = .RGB
    ∧ ((imgRGBATransparent.mode = .RGBA ∨ imgRGBATransparent.mode = .LA) →
        flatten_image_to_white imgRGBATransparent
          = specFlattenWhite imgRGBATransparent) :=
  c3_normalize_for_jpeg_amended imgRGBATransparent (by decide)

theorem resizedTo_mode (x : PImage) (w h : Nat) :
    (resizedTo x w h).mode = x.mode := rfl

theorem resizedTo_alpha255 (x : PImage) (w h : Nat)
    (hx : ∀ p ∈ x.px, p.a = 255) :
    ∀ p ∈ (resizedTo x w h).px, p.a = 255 := by
  intro p hp
  rcases resamplePx_mem x w h p hp with hmem | rfl
  · exact hx p hmem
  · rfl

/-- C4: in the preview variant's Mode B, every asset except the JPEG
preview is encoded from an image in mode RGBA (so source transparency
reaches the PNG icons, every ICO frame, and the PNG and WEBP previews), and
when the source lacks alpha the carried alpha channel is fully opaque. -/
theorem c4_alpha_capable_assets_rgba (img : PImage) :
    ∀ op ∈ Preview.modeBOps img, op.path ≠ PREVIEW_JPG →
      ∃ d, op.gen = Except.ok d ∧
        ∀ i ∈ dataImages d,
          i.mode = .RGBA
            ∧ (hasAlpha img = false → ∀ p ∈ i.px, p.a = 255) := by
  intro op hop hne
  have hmode := ensure_rgba_mode img
  have hop' : op = ⟨FAVICON_16, false,
        (pilResize (ensure_rgba img) FAVICON_16_SIZE).map .png⟩
      ∨ op = ⟨FAVICON_32, false,
        (pilResize (ensure_rgba img) FAVICON_32_SIZE).map .png⟩
      ∨ op = ⟨APPLE_TOUCH_ICON, false,
        (pilResize (ensure_rgba img) APPLE_TOUCH_ICON_SIZE).map .png⟩
      ∨ op = ⟨FAVICON_ICO, false,
        faviconIcoData (ensure_rgba img) FAVICON_ICO_SIZES⟩
      ∨ op = ⟨PREVIEW_PNG, false, .ok (.png (ensure_rgba img))⟩
      ∨ op = ⟨PREVIEW_JPG, false, .ok (.jpeg (ensure_rgb img))⟩
      ∨ op = ⟨PREVIEW_WEBP, false, .ok (.webp (ensure_rgba img))⟩ := by
    simpa [Preview.modeBOps] using hop
  rcases hop' with rfl | rfl | rfl | rfl | rfl | rfl | rfl
  · refine ⟨_, rfl, ?_⟩
    intro i hi
    rw [List.mem_singleton.1 hi]
    exact ⟨hmode, fun hna => resizedTo_alpha255 _ _ _ (ensure_rgba_alpha255 img hna)⟩
  · refine ⟨_, rfl, ?_⟩
    intro i hi
    rw [List.mem_singleton.1 hi]
    exact ⟨hmode, fun hna => resizedTo_alpha255 _ _ _ (ensure_rgba_alpha255 img hna)⟩
  · refine ⟨_, rfl, ?_⟩
    intro i hi
    rw [List.mem_singleton.1 hi]
    exact ⟨hmode, fun hna => resizedTo_alpha255 _ _ _ (ensure_rgba_alpha255 img hna)⟩
  · refine ⟨_, rfl, ?_⟩
    intro i hi
    have hi' : i = resizedTo (ensure_rgba img) 16 16 := icoSaveFrames_mem _ _ i hi
    rw [hi']
    exact ⟨hmode, fun hna => resizedTo_alpha255 _ _ _ (ensure_rgba_alpha255 img hna)⟩
  · refine ⟨_, rfl, ?_⟩
    intro i hi
    rw [List.mem_singleton.1 hi]
    exact ⟨hmode, fun hna => ensure_rgba_alpha255 img hna⟩
  · exact absurd rfl hne
  · refine ⟨_, rfl, ?_⟩
    intro i hi
    rw [List.mem_singleton.1 hi]
    exact ⟨hmode, fun hna => ensure_rgba_alpha255 img hna⟩

/-- Witness for C4: the PNG preview asset of a concrete opaque RGB logo. -/
theorem c4_alpha_capable_assets_rgba_witness :
    ∃ d, (AssetOp.mk PREVIEW_PNG false
        (.ok (.png (ensure_rgba opaqueLogo)))).gen = Except.ok d ∧
      ∀ i ∈ dataImages d,
        i.mode = .RGBA
          ∧ (hasAlpha opaqueLogo = false → ∀ p ∈ i.px, p.a = 255) :=
  c4_alpha_capable_assets_rgba opaqueLogo
    ⟨PREVIEW_PNG, false, .ok (.png (ensure_rgba opaqueLogo))⟩
    (List.mem_cons_of_mem _ (List.mem_cons_of_mem _ (List.mem_cons_of_mem _
      (List.mem_cons_of_mem _ (List.mem_cons_self _ _)))))
    (by decide)

theorem applyOps_write_all (fails : List String) (ops : List AssetOp)
    (fs : FS) (op : AssetOp)
    (hn : (ops.map AssetOp.path).Nodup) (hop : op ∈ ops)
    (hc : op.skipIfExists = false ∨ lookup fs op.path = none)
    (d : FileData) (hg : op.gen = .ok d) (hf : op.path ∉ fails) :
    lookup (applyOps fails ops fs).1 op.path = some d := by
  rw [applyOps_lookup_mem fails ops fs op hn hop]
  unfold stepVal
  rcases hc with hsk | hnx
  · rw [hsk, hg]
    simp [hf]
  · rw [hnx, hg]
    simp [hf]

theorem applyOps_skip_keep (fails : List String) (ops : List AssetOp)
    (fs : FS) (op : AssetOp)
    (hn : (ops.map AssetOp.path).Nodup) (hop : op ∈ ops)
    (hsk : op.skipIfExists = true) (d₀ : FileData)
    (hex : lookup fs op.path = some d₀) :
    lookup (applyOps fails ops fs).1 op.path = some d₀ := by
  rw [applyOps_lookup_mem fails ops fs op hn hop, hex]
  unfold stepVal
  simp [hsk]

theorem applyOps_fail_keep (fails : List String) (ops : List AssetOp)
    (fs : FS) (op : AssetOp)
    (hn : (ops.map AssetOp.path).Nodup) (hop : op ∈ ops)
    (hsk : op.skipIfExists = false) (d : FileData) (hg : op.gen = .ok d)
    (hf : op.path ∈ fails) :
    lookup (applyOps fails ops fs).1 op.path = lookup fs op.path := by
  rw [applyOps_lookup_mem fails ops fs op hn hop]
  unfold stepVal
  rw [hsk, hg]
  simp [hf]

theorem applyOps_msg_mem_of_notskip (fails : List String)
    (ops : List AssetOp) (fs : FS) (op : AssetOp)
    (hn : (ops.map AssetOp.path).Nodup) (hop : op ∈ ops)
    (hc : op.skipIfExists = false ∨ lookup fs op.path = none) :
    msgOf fails op ∈ (applyOps fails ops fs).2 := by
  induction ops generalizing fs with
  | nil => cases hop
  | cons x rest ih =>
      simp only [List.map_cons, List.nodup_cons] at hn
      rcases List.mem_cons.1 hop with rfl | hmem
      · have hmsg : stepMsg fails fs op = msgOf fails op := by
          unfold stepMsg msgOf
          rcases hc with hsk | hnx
          · simp [hsk]
          · simp [hnx]
        simp only [applyOps]
        rw [hmsg]
        exact List.mem_cons_self _ _
      · have hne : x.path ≠ op.path := by
          intro c
          exact hn.1 (c ▸ List.mem_map_of_mem AssetOp.path hmem)
        have hc' : op.skipIfExists = false
            ∨ lookup (stepFS fails fs x) op.path = none := by
          rcases hc with hsk | hnx
          · exact Or.inl hsk
          · right
            rw [lookup_stepFS_ne _ _ _ _ (Ne.symm hne)]
            exact hnx
        simp only [applyOps]
        exact List.mem_cons_of_mem _ (ih _ hn.2 hmem hc')

theorem modeBOpsPreview_noskip (i : PImage) :
    ∀ op ∈ Preview.modeBOps i, op.skipIfExists = false := by
  intro op hop
  have hop' := hop
  simp only [Preview.modeBOps, List.mem_cons, List.not_mem_nil, or_false]
    at hop'
  rcases hop' with rfl | rfl | rfl | rfl | rfl | rfl | rfl <;> rfl

theorem modeBOpsPreview_gen_ok (i : PImage) :
    ∀ op ∈ Preview.modeBOps i, ∃ d, op.gen = Except.ok d := by
  intro op hop
  have hop' := hop
  simp only [Preview.modeBOps, List.mem_cons, List.not_mem_nil, or_false]
    at hop'
  rcases hop' with rfl | rfl | rfl | rfl | rfl | rfl | rfl <;> exact ⟨_, rfl⟩

theorem modeBOpsPreview_paths (i : PImage) :
    (Preview.modeBOps i).map AssetOp.path
      = [FAVICON_16, FAVICON_32, APPLE_TOUCH_ICON, FAVICON_ICO,
         PREVIEW_PNG, PREVIEW_JPG, PREVIEW_WEBP] := rfl

theorem modeBOpsPreview_nodup (i : PImage) :
    ((Preview.modeBOps i).map AssetOp.path).Nodup := by
  rw [modeBOpsPreview_paths]
  decide

theorem modeBOpsConservative_skip (i : PImage) :
    ∀ op ∈ Conservative.modeBOps i, op.skipIfExists = true := by
  intro op hop
  have hop' := hop
  simp only [Conservative.modeBOps, List.mem_cons, List.not_mem_nil, or_false]
    at hop'
  rcases hop' with rfl | rfl | rfl | rfl <;> rfl

theorem modeBOpsConservative_nodup (i : PImage) :
    ((Conservative.modeBOps i).map AssetOp.path).Nodup := by
  have hp : (Conservative.modeBOps i).map AssetOp.path
      = ["favicon-16x16.png", "favicon-32x32.png", "apple-touch-icon.png",
         "favicon.ico"] := rfl
  rw [hp]
  decide

theorem preview_run_eq (fs : FS) (L : FileData) (fails : List String)
    (h : lookup fs LOGO_FILENAME = some L) :
    Preview.generate_all_assets fs fails
      = applyOps fails (Preview.modeBOps (decode L)) fs := by
  simp [Preview.generate_all_assets, getFile, h]

theorem conservative_run_eq (fs : FS) (L : FileData) (fails : List String)
    (h : lookup fs "logo.png" = some L) :
    Conservative.generate_icons_from_logo fs fails
      = applyOps fails
          (Conservative.modeBOps (flatten_image_to_white (decode L))) fs := by
  simp [Conservative.generate_icons_from_logo, getFile, h]

set_option maxRecDepth 10000 in
/-- C2 (counterexample): the conservative variant's Mode B does NOT always
overwrite — with `favicon-16x16.png` already present, the run leaves its
bytes untouched and prints a skip notice, so the claim that Mode B always
regenerates every existing destination (and that only the bulk path of the
conservative variant skips) is false. -/
theorem c2_conservative_modeB_skips_existing :
    lookup (Conservative.generate_icons_from_logo fsConservativeExisting []).1
        "favicon-16x16.png" = some (.raw 7)
    ∧ Msg.skipped "favicon-16x16.png"
        ∈ (Conservative.generate_icons_from_logo fsConservativeExisting []).2 := by
  decide

/-- C2 (amended): the preview variant's Mode B unconditionally regenerates
and replaces every declared asset; the conservative variant instead skips
every Mode B destination that already exists (emitting a skip notice), in
addition to its bulk `.webp` conversion path. -/
theorem c2_overwrite_policy_amended
    (fs₁ : FS) (L₁ : FileData) (h₁ : lookup fs₁ LOGO_FILENAME = some L₁)
    (fs₂ : FS) (L₂ : FileData) (h₂ : lookup fs₂ "logo.png" = some L₂) :
    (∀ op ∈ Preview.modeBOps (decode L₁),
        ∃ d, op.gen = Except.ok d
          ∧ lookup (Preview.generate_all_assets fs₁ []).1 op.path = some d)
    ∧ (∀ op ∈ Conservative.modeBOps (flatten_image_to_white (decode L₂)),
        ∀ d₀, lookup fs₂ op.path = some d₀ →
          lookup (Conservative.generate_icons_from_logo fs₂ []).1 op.path
              = some d₀
            ∧ Msg.skipped op.path
                ∈ (Conservative.generate_icons_from_logo fs₂ []).2) := by
  constructor
  · intro op hop
    obtain ⟨d, hg⟩ := modeBOpsPreview_gen_ok (decode L₁) op hop
    refine ⟨d, hg, ?_⟩
    rw [preview_run_eq fs₁ L₁ [] h₁]
    exact applyOps_write_all [] _ fs₁ op (modeBOpsPreview_nodup _) hop
      (Or.inl (modeBOpsPreview_noskip _ op hop)) d hg (by simp)
  · intro op hop d₀ hex
    rw [conservative_run_eq fs₂ L₂ [] h₂]
    constructor
    · exact applyOps_skip_keep [] _ fs₂ op (modeBOpsConservative_nodup _) hop
        (modeBOpsConservative_skip _ op hop) d₀ hex
    · exact applyOps_skip_msg_mem [] _ fs₂ op (modeBOpsConservative_nodup _)
        hop (modeBOpsConservative_skip _ op hop) (by rw [hex]; rfl)

/-- Witness for C2 (amended) at concrete directories: the preview variant
with an existing preview.jpg, the conservative variant with an existing
favicon-16x16.png. -/
theorem c2_overwrite_policy_amended_witness :
    (∀ op ∈ Preview.modeBOps (decode (FileData.png opaqueLogo)),
        ∃ d, op.gen = Except.ok d
          ∧ lookup (Preview.generate_all_assets fsPreviewExisting []).1 op.path
              = some d)
    ∧ (∀ op ∈ Conservative.modeBOps
          (flatten_image_to_white (decode (FileData.png imgRGBATransparent))),
        ∀ d₀, lookup fsConservativeExisting op.path = some d₀ →
          lookup (Conservative.generate_icons_from_logo
              fsConservativeExisting []).1 op.path = some d₀
            ∧ Msg.skipped op.path
                ∈ (Conservative.generate_icons_from_logo
                    fsConservativeExisting []).2) :=
  c2_overwrite_policy_amended fsPreviewExisting (FileData.png opaqueLogo)
    (by decide) fsConservativeExisting (FileData.png imgRGBATransparent)
    (by decide)

/-- C5: per-asset isolation in the preview variant's Mode B.  When the
write of `apple-touch-icon.png` fails, the failure is caught at that
asset's boundary and reported, the destination is left as it was, and the
other six assets are all still produced (written with their fresh content)
and reported successful. -/
theorem c5_asset_failure_isolated (fs : FS) (L : FileData)
    (h : lookup fs LOGO_FILENAME = some L) :
    (∀ op ∈ Preview.modeBOps (decode L), op.path ≠ APPLE_TOUCH_ICON →
        ∃ d, op.gen = Except.ok d
          ∧ lookup (Preview.generate_all_assets fs [APPLE_TOUCH_ICON]).1
              op.path = some d
          ∧ Msg.generated op.path
              ∈ (Preview.generate_all_assets fs [APPLE_TOUCH_ICON]).2)
    ∧ lookup (Preview.generate_all_assets fs [APPLE_TOUCH_ICON]).1
          APPLE_TOUCH_ICON = lookup fs APPLE_TOUCH_ICON
    ∧ Msg.genError APPLE_TOUCH_ICON
        ∈ (Preview.generate_all_assets fs [APPLE_TOUCH_ICON]).2 := by
  rw [preview_run_eq fs L [APPLE_TOUCH_ICON] h]
  refine ⟨?_, ?_, ?_⟩
  · intro op hop hne
    obtain ⟨d, hg⟩ := modeBOpsPreview_gen_ok (decode L) op hop
    have hnf : op.path ∉ [APPLE_TOUCH_ICON] := by simp [hne]
    refine ⟨d, hg, ?_, ?_⟩
    · exact applyOps_write_all _ _ fs op (modeBOpsPreview_nodup _) hop
        (Or.inl (modeBOpsPreview_noskip _ op hop)) d hg hnf
    · have hmsg : msgOf [APPLE_TOUCH_ICON] op = Msg.generated op.path := by
        unfold msgOf
        rw [hg]
        simp [hne]
      rw [← hmsg]
      exact applyOps_msg_mem _ _ fs op hop (modeBOpsPreview_noskip _ op hop)
  · exact applyOps_fail_keep _ _ fs
      ⟨APPLE_TOUCH_ICON, false,
        (pilResize (ensure_rgba (decode L)) APPLE_TOUCH_ICON_SIZE).map .png⟩
      (modeBOpsPreview_nodup _)
      (List.mem_cons_of_mem _ (List.mem_cons_of_mem _
        (List.mem_cons_self _ _)))
      rfl _ rfl (by simp)
  · have hmsg : msgOf [APPLE_TOUCH_ICON]
        ⟨APPLE_TOUCH_ICON, false,
          (pilResize (ensure_rgba (decode L)) APPLE_TOUCH_ICON_SIZE).map .png⟩
        = Msg.genError APPLE_TOUCH_ICON := by
      unfold msgOf
      rw [show ((pilResize (ensure_rgba (decode L))
          APPLE_TOUCH_ICON_SIZE).map FileData.png)
        = Except.ok (.png (resizedTo (ensure_rgba (decode L)) 180 180))
        from rfl]
      simp
    rw [← hmsg]
    exact applyOps_msg_mem _ _ fs _
      (List.mem_cons_of_mem _ (List.mem_cons_of_mem _
        (List.mem_cons_self _ _))) rfl

/-- Witness for C5 at a concrete one-file directory. -/
theorem c5_asset_failure_isolated_witness :
    (∀ op ∈ Preview.modeBOps (decode (FileData.png opaqueLogo)),
        op.path ≠ APPLE_TOUCH_ICON →
        ∃ d, op.gen = Except.ok d
          ∧ lookup (Preview.generate_all_assets fsLogoOnly
              [APPLE_TOUCH_ICON]).1 op.path = some d
          ∧ Msg.generated op.path
              ∈ (Preview.generate_all_assets fsLogoOnly [APPLE_TOUCH_ICON]).2)
    ∧ lookup (Preview.generate_all_assets fsLogoOnly [APPLE_TOUCH_ICON]).1
          APPLE_TOUCH_ICON = lookup fsLogoOnly APPLE_TOUCH_ICON
    ∧ Msg.genError APPLE_TOUCH_ICON
        ∈ (Preview.generate_all_assets fsLogoOnly [APPLE_TOUCH_ICON]).2 :=
  c5_asset_failure_isolated fsLogoOnly (FileData.png opaqueLogo) (by decide)

/-- C7: conservative bulk mode under the skip policy.  In a directory whose
`.webp` files are exactly `a.webp` and `b.webp`, with `a.ico` already
present and `b.ico` absent, the run writes only `b.ico` (the flattened,
64-resized single-frame ICO of `b.webp`), leaves `a.ico` — and every other
file — byte-for-byte untouched, and prints a skip notice for `a.ico` and a
success notice for `b.ico`. -/
theorem c7_skip_mode_bulk (fs : FS) (d : FileData)
    (hw : webpNames fs = ["a.webp", "b.webp"])
    (ha : lookup fs "a.ico" = some d)
    (hb : lookup fs "b.ico" = none) :
    lookup (Conservative.convert_all_webp_to_ico fs []).1 "a.ico" = some d
    ∧ lookup (Conservative.convert_all_webp_to_ico fs []).1 "b.ico"
        = some (.ico (icoSaveFrames
            (resizedTo (flatten_image_to_white
              (decode (getFile fs "b.webp"))) 64 64) [(64, 64)]))
    ∧ (∀ p, p ≠ "b.ico" →
        lookup (Conservative.convert_all_webp_to_ico fs []).1 p = lookup fs p)
    ∧ Msg.skipped "a.ico" ∈ (Conservative.convert_all_webp_to_ico fs []).2
    ∧ Msg.generated "b.ico"
        ∈ (Conservative.convert_all_webp_to_ico fs []).2 := by
  have hops : Conservative.modeAOps fs
      = [⟨"a.ico", true,
          (pilResize (flatten_image_to_white (decode (getFile fs "a.webp")))
              (64, 64)).map (fun r => .ico (icoSaveFrames r [(64, 64)]))⟩,
         ⟨"b.ico", true,
          (pilResize (flatten_image_to_white (decode (getFile fs "b.webp")))
              (64, 64)).map (fun r => .ico (icoSaveFrames r [(64, 64)]))⟩] := by
    unfold Conservative.modeAOps
    rw [hw]
    rfl
  have hpaths : (Conservative.modeAOps fs).map AssetOp.path
      = ["a.ico", "b.ico"] := by
    rw [hops]
    rfl
  have hnz : ¬ webpNames fs = [] := by
    rw [hw]
    simp
  have hrun : Conservative.convert_all_webp_to_ico fs []
      = applyOps [] (Conservative.modeAOps fs) fs := by
    unfold Conservative.convert_all_webp_to_ico
    rw [if_neg hnz]
  have hnd : ((Conservative.modeAOps fs).map AssetOp.path).Nodup := by
    rw [hpaths]
    decide
  have hmemA : (⟨"a.ico", true,
      (pilResize (flatten_image_to_white (decode (getFile fs "a.webp")))
          (64, 64)).map (fun r => .ico (icoSaveFrames r [(64, 64)]))⟩ : AssetOp)
      ∈ Conservative.modeAOps fs := by
    rw [hops]
    exact List.mem_cons_self _ _
  have hmemB : (⟨"b.ico", true,
      (pilResize (flatten_image_to_white (decode (getFile fs "b.webp")))
          (64, 64)).map (fun r => .ico (icoSaveFrames r [(64, 64)]))⟩ : AssetOp)
      ∈ Conservative.modeAOps fs := by
    rw [hops]
    exact List.mem_cons_of_mem _ (List.mem_cons_self _ _)
  refine ⟨?_, ?_, ?_, ?_, ?_⟩
  · rw [hrun]
    exact applyOps_skip_keep [] _ fs _ hnd hmemA rfl d ha
  · rw [hrun]
    exact applyOps_write_all [] _ fs _ hnd hmemB (Or.inr hb) _ rfl (by simp)
  · intro p hp
    by_cases hpa : p = "a.ico"
    · subst hpa
      rw [hrun, applyOps_skip_keep [] _ fs _ hnd hmemA rfl d ha, ha]
    · rw [hrun]
      refine applyOps_lookup_notmem [] _ fs p ?_
      rw [hpaths]
      simp [hpa, hp]
  · rw [hrun]
    exact applyOps_skip_msg_mem [] _ fs _ hnd hmemA rfl (by rw [ha]; rfl)
  · rw [hrun]
    have hmsg : msgOf []
        (⟨"b.ico", true,
          (pilResize (flatten_image_to_white (decode (getFile fs "b.webp")))
              (64, 64)).map (fun r => .ico (icoSaveFrames r [(64, 64)]))⟩
          : AssetOp)
        = Msg.generated "b.ico" := rfl
    rw [← hmsg]
    exact applyOps_msg_mem_of_notskip [] _ fs _ hnd hmemB (Or.inr hb)

/-- Witness for C7 at the concrete fixture directory. -/
theorem c7_skip_mode_bulk_witness :
    lookup (Conservative.convert_all_webp_to_ico fsBulk []).1 "a.ico"
        = some (.raw 1)
    ∧ lookup (Conservative.convert_all_webp_to_ico fsBulk []).1 "b.ico"
        = some (.ico (icoSaveFrames
            (resizedTo (flatten_image_to_white
              (decode (getFile fsBulk "b.webp"))) 64 64) [(64, 64)]))
    ∧ (∀ p, p ≠ "b.ico" →
        lookup (Conservative.convert_all_webp_to_ico fsBulk []).1 p
          = lookup fsBulk p)
    ∧ Msg.skipped "a.ico" ∈ (Conservative.convert_all_webp_to_ico fsBulk []).2
    ∧ Msg.generated "b.ico"
        ∈ (Conservative.convert_all_webp_to_ico fsBulk []).2 :=
  c7_skip_mode_bulk fsBulk (FileData.raw 1) (by decide) (by decide) (by decide)

set_option maxRecDepth 10000 in
/-- C1 (code bug): both variants build the four resized favicon images but
then call `save` on `icon_list[0]` — the 16-by-16 one — passing
`sizes=[16, 32, 48, 64]`.  Pillow's ICO encoder silently drops every
requested size larger than the image being saved, so the written
favicon.ico holds exactly ONE 16-by-16 frame instead of the four the
request (and the scripts' own docstrings) call for. -/
theorem c1_favicon_ico_single_frame :
    FAVICON_ICO_SIZES = [16, 32, 48, 64]
    ∧ lookup (Preview.generate_all_assets fsBigLogo []).1 FAVICON_ICO
        = some (.ico [resizedTo (ensure_rgba bigLogo) 16 16])
    ∧ lookup (Conservative.generate_icons_from_logo fsBigLogo []).1
          "favicon.ico"
        = some (.ico [resizedTo (flatten_image_to_white bigLogo) 16 16])
    ∧ (icoSaveFrames (resizedTo (ensure_rgba bigLogo) 16 16)
        (FAVICON_ICO_SIZES.map fun s => (s, s))).length = 1 := by
  decide

set_option maxRecDepth 10000 in
/-- C9 (counterexample): concurrent and sequential execution of the
per-asset tasks do NOT always yield the same written files.  In the
preview variant's bulk mode, `a.webp` and `a.WEBP` both convert to
`a.ico`; running the two tasks in the two possible completion orders
(a permutation of the task list) leaves different bytes in `a.ico`. -/
theorem c9_order_dependent_counterexample :
    ((Preview.modeAOps fsCaseCollision).reverse).Perm
        (Preview.modeAOps fsCaseCollision)
    ∧ lookup (applyOps [] (Preview.modeAOps fsCaseCollision).reverse
          fsCaseCollision).1 "a.ico"
        ≠ lookup (applyOps [] (Preview.modeAOps fsCaseCollision)
            fsCaseCollision).1 "a.ico" :=
  ⟨List.reverse_perm _, by decide⟩

/-- C9 (amended): asset generation is scheduler-independent whenever
distinct tasks target distinct destination paths.  In Mode B the seven
destinations are distinct constants, so every completion order of the
tasks leaves every file with the same final content and prints a
permutation of the same messages; in bulk Mode A the same holds under the
hypothesis that the derived `.ico` paths are pairwise distinct (which a
case-insensitive basename collision such as `a.webp`/`a.WEBP` violates). -/
theorem c9_scheduler_independence
    (fails : List String) (img : PImage) (fs : FS) (σ : List AssetOp)
    (hσ : σ.Perm (Preview.modeBOps img))
    (fs₂ : FS) (σ₂ : List AssetOp)
    (hn₂ : ((Preview.modeAOps fs₂).map AssetOp.path).Nodup)
    (hσ₂ : σ₂.Perm (Preview.modeAOps fs₂)) :
    (∀ p, lookup (applyOps fails σ fs).1 p
        = lookup (applyOps fails (Preview.modeBOps img) fs).1 p)
    ∧ (applyOps fails σ fs).2.Perm
        ((applyOps fails (Preview.modeBOps img) fs).2)
    ∧ ∀ p, lookup (applyOps fails σ₂ fs₂).1 p
        = lookup (applyOps fails (Preview.modeAOps fs₂) fs₂).1 p := by
  refine ⟨?_, ?_, ?_⟩
  · exact fun p => applyOps_perm_lookup fails hσ (modeBOpsPreview_nodup img) fs p
  · have hmsgs₁ : (applyOps fails σ fs).2 = σ.map (msgOf fails) := by
      apply applyOps_snd_noskip
      intro op hop
      exact modeBOpsPreview_noskip img op (hσ.mem_iff.1 hop)
    have hmsgs₂ : (applyOps fails (Preview.modeBOps img) fs).2
        = (Preview.modeBOps img).map (msgOf fails) :=
      applyOps_snd_noskip _ _ _ (modeBOpsPreview_noskip img)
    rw [hmsgs₁, hmsgs₂]
    exact hσ.map (msgOf fails)
  · exact fun p => applyOps_perm_lookup fails hσ₂ hn₂ fs₂ p

/-- Witness for C9 (amended): reversed schedules over concrete directories
with distinct destination paths. -/
theorem c9_scheduler_independence_witness :
    (∀ p, lookup (applyOps [] (Preview.modeBOps opaqueLogo).reverse
          fsLogoOnly).1 p
        = lookup (applyOps [] (Preview.modeBOps opaqueLogo) fsLogoOnly).1 p)
    ∧ (applyOps [] (Preview.modeBOps opaqueLogo).reverse fsLogoOnly).2.Perm
        ((applyOps [] (Preview.modeBOps opaqueLogo) fsLogoOnly).2)
    ∧ ∀ p, lookup (applyOps [] (Preview.modeAOps fsBulk).reverse fsBulk).1 p
        = lookup (applyOps [] (Preview.modeAOps fsBulk) fsBulk).1 p :=
  c9_scheduler_independence [] opaqueLogo fsLogoOnly
    (Preview.modeBOps opaqueLogo).reverse (List.reverse_perm _)
    fsBulk (Preview.modeAOps fsBulk).reverse (by decide)
    (List.reverse_perm _)
